import Mathlib

/-!
Shallow embedding of the klogstream streaming engine (Go) in Lean 4.

The embedding covers, translated from the repository source:
  - the line scanner (`scanner.Scan` / `Text` / `Bytes` / `Err`);
  - the single-line and multiline record processing paths
    (`Streamer.processLogStream`, `Streamer.processMultilineLogStream`);
  - the per-container follower retry loop (`Streamer.startPodLogStreamer`);
  - the streamer lifecycle (`Streamer.Start`, `Streamer.Stop`);
  - the error classifiers (`errors.IsPodDeletedError`, `isPermError`);
  - the two shipped merge predicates (`JavaStackMatcher.ShouldMerge`,
    `JSONMatcher.ShouldMerge`).

Bytes are modelled as `Nat` (with 10 the newline byte); Go strings in the
matcher code are modelled through their character lists.  Goroutine
scheduling, real time (backoff durations, timestamps) and the Kubernetes
API are abstracted: external interactions are supplied as explicit input
scripts, and emitted side effects (handler callbacks, sleeps, ActiveSet
mutation) are recorded as explicit event lists.
-/

namespace Klogstream

/-! ### Line scanner (`scanner` in the stream package)

`scanner.Scan` repeatedly calls `Read` into a buffer; when it finds a
newline at index `i` of the freshly read chunk it sets the token to the
accumulated bytes plus `buf[:i]` and returns, discarding `buf[i+1:n]`
(the source marks this with a TODO about remaining data).  On a read that
returns no newline it appends the whole chunk and keeps reading.  At EOF a
non-empty accumulated token is returned as a final line, and subsequent
`Scan` calls return false.  A reader is modelled as the list of chunks its
successive `Read` calls return before EOF. -/

/-- Splits a read chunk at its first newline byte: returns the bytes before
the newline and the bytes after it (the part the Go scanner discards), or
`none` when the chunk has no newline. -/
def splitFirstNL : List Nat → Option (List Nat × List Nat)
  | [] => none
  | b :: rest =>
    if b = 10 then some ([], rest)
    else
      match splitFirstNL rest with
      | some (pre, post) => some (b :: pre, post)
      | none => none

/-- All tokens produced by repeated `scanner.Scan` calls over the given
chunk sequence, starting with `acc` as the bytes accumulated so far inside
the current `Scan` call.  Faithful to the source: when a chunk contains a
newline, the bytes of that chunk after the newline are dropped. -/
def scanTokens : List (List Nat) → List Nat → List (List Nat)
  | [], acc => if acc.isEmpty then [] else [acc]
  | c :: rest, acc =>
    match splitFirstNL c with
    | some (pre, _dropped) => (acc ++ pre) :: scanTokens rest []
    | none => scanTokens rest (acc ++ c)

/-- The newline-separated lines of a byte source, with the terminating
newline stripped (what the spec says the scanner must produce): the tokens
obtained when every byte arrives in its own read, so nothing can be
dropped. -/
def specLines (source : List Nat) : List (List Nat) :=
  scanTokens (source.map (fun b => [b])) []

/-! ### Records and the two processing paths

`LogMessage` carries namespace / pod / container / timestamp / message /
raw.  The identifier triple is constant per follower and the timestamp is
wall-clock (`time.Now()`), so records are modelled by their `message` and
`raw` fields.  `scanner.Text()` and `scanner.Bytes()` return the same
token, hence both fields are computed from the same byte-list lines.  The
formatter (`msg.Message = s.formatter.Format(msg)`) is modelled as a pure
function applied to the assembled message; the include regex
(`s.filter.IncludeRegex`) as an optional boolean predicate, `none`
modelling a nil regex. -/

structure LogRecord where
  message : List Nat
  raw : List Nat
deriving DecidableEq

/-- `s.filter.IncludeRegex != nil && !s.filter.IncludeRegex.MatchString m`
drops the record; a nil regex keeps everything. -/
def matchesInclude : Option (List Nat → Bool) → List Nat → Bool
  | none, _ => true
  | some p, l => p l

/-- The single-line processing loop of `Streamer.processLogStream` over the
scanned lines: each line is include-filtered, formatted, and delivered. -/
def processLogStream (include? : Option (List Nat → Bool))
    (fmt : List Nat → List Nat) : List (List Nat) → List LogRecord
  | [] => []
  | l :: rest =>
    if matchesInclude include? l then
      ⟨fmt l, l⟩ :: processLogStream include? fmt rest
    else
      processLogStream include? fmt rest

/-- Newline-join of the pending buffer, as built by the flush closure in
`Streamer.processMultilineLogStream` (`message := buffer[0]`, then
`message += "\n" + buffer[i]`; the raw loop inserts a newline byte between
consecutive raw lines, producing the same byte sequence). -/
def joinNL : List (List Nat) → List Nat
  | [] => []
  | [l] => l
  | l :: next :: rest => l ++ 10 :: joinNL (next :: rest)

/-- The flush closure of `Streamer.processMultilineLogStream`: an empty
buffer emits nothing; otherwise the joined message is include-filtered
(dropping the whole buffer on failure) and delivered formatted. -/
def emitRecord (include? : Option (List Nat → Bool))
    (fmt : List Nat → List Nat) (buffer : List (List Nat)) : List LogRecord :=
  match buffer with
  | [] => []
  | _ =>
    let message := joinNL buffer
    if matchesInclude include? message then [⟨fmt message, message⟩] else []

/-- The scan loop of `Streamer.processMultilineLogStream`, carrying the
matcher state `m` (the merge predicate is an arbitrary, possibly stateful,
`step` function as `MultilineMatcher` implementations may hold state), the
pending `buffer` and the `lastLine`.  Faithful to the source: a first line
starts the buffer; a merged line is appended and the buffer is flushed
when its length reaches `maxM`; a non-merged line flushes the old buffer
and starts a new one; the trailing buffer is flushed at stream end. -/
def processMLAux {σ : Type} (step : σ → List Nat → List Nat → Bool × σ)
    (include? : Option (List Nat → Bool)) (fmt : List Nat → List Nat)
    (maxM : Nat) :
    List (List Nat) → σ → List (List Nat) → List Nat → List LogRecord
  | [], _, buffer, _ => emitRecord include? fmt buffer
  | l :: rest, m, buffer, lastLine =>
    if buffer.isEmpty then
      processMLAux step include? fmt maxM rest m [l] l
    else
      match step m lastLine l with
      | (true, m') =>
        let buffer' := buffer ++ [l]
        if maxM ≤ buffer'.length then
          emitRecord include? fmt buffer' ++
            processMLAux step include? fmt maxM rest m' [] l
        else
          processMLAux step include? fmt maxM rest m' buffer' l
      | (false, m') =>
        emitRecord include? fmt buffer ++
          processMLAux step include? fmt maxM rest m' [l] l

/-- `Streamer.processMultilineLogStream` over the scanned lines: the scan
loop started with an empty buffer and the zero value of `lastLine`. -/
def processMultilineLogStream {σ : Type}
    (step : σ → List Nat → List Nat → Bool × σ)
    (include? : Option (List Nat → Bool)) (fmt : List Nat → List Nat)
    (maxM : Nat) (lines : List (List Nat)) (m : σ) : List LogRecord :=
  processMLAux step include? fmt maxM lines m [] []

/-- The partition of the scanned lines into the successive flushed buffers
(runs) of the multiline scan loop, including buffers later dropped by the
include regex.  Mirrors the recursion of `processMLAux` exactly (the flush
decision never depends on the include regex), so each run is one flushed
buffer in flush order. -/
def mlRunsAux {σ : Type} (step : σ → List Nat → List Nat → Bool × σ)
    (maxM : Nat) :
    List (List Nat) → σ → List (List Nat) → List Nat → List (List (List Nat))
  | [], _, buffer, _ => if buffer.isEmpty then [] else [buffer]
  | l :: rest, m, buffer, lastLine =>
    if buffer.isEmpty then
      mlRunsAux step maxM rest m [l] l
    else
      match step m lastLine l with
      | (true, m') =>
        let buffer' := buffer ++ [l]
        if maxM ≤ buffer'.length then
          buffer' :: mlRunsAux step maxM rest m' [] l
        else
          mlRunsAux step maxM rest m' buffer' l
      | (false, m') =>
        buffer :: mlRunsAux step maxM rest m' [l] l

/-- The flushed buffers of a whole multiline run. -/
def mlRuns {σ : Type} (step : σ → List Nat → List Nat → Bool × σ)
    (maxM : Nat) (lines : List (List Nat)) (m : σ) : List (List (List Nat)) :=
  mlRunsAux step maxM lines m [] []

/-- `NewStreamer` keeps a configured positive `MaxMultilines` and replaces a
non-positive one by `DefaultMaxMultilines` (500). -/
def DefaultMaxMultilines : Int := 500

/-- The `maxMultilines` value actually stored by `NewStreamer` for a
configured value. -/
def resolveMaxMultilines (configured : Int) : Int :=
  if configured ≤ 0 then DefaultMaxMultilines else configured

/-! ### Error classification (`internal/errors` and `isPermError`)

Go errors reaching the scanner are either `io.EOF` or carry a message
string; substring matching uses `strings.Contains`. -/

/-- An error value as the scanner records it: `io.EOF` or an error with a
message. -/
inductive GoErr where
  | eof : GoErr
  | mk (msg : String) : GoErr
deriving DecidableEq

/-- `strings.Contains` on character lists: some suffix of the haystack has
the pattern as a prefix (an empty pattern is contained in everything). -/
def listContainsSub (pat : List Char) : List Char → Bool
  | [] => pat.isPrefixOf ([] : List Char)
  | c :: t => pat.isPrefixOf (c :: t) || listContainsSub pat t

/-- `strings.Contains(s, pat)`. -/
def strContainsSub (s pat : String) : Bool :=
  listContainsSub pat.data s.data

/-- `errors.IsPodDeletedError`: true for `io.EOF` and for errors whose
message contains one of the four pod-gone substrings. -/
def IsPodDeletedError : GoErr → Bool
  | .eof => true
  | .mk m =>
    strContainsSub m "container not found" ||
    strContainsSub m "pod not found" ||
    strContainsSub m "has been terminated" ||
    strContainsSub m "has been deleted"

/-- `isPermError` in the stream package (and `errors.IsPermError`): the
source always returns false (its body is a TODO). -/
def isPermError (_e : GoErr) : Bool := false

/-- `scanner.Err()`: `io.EOF` is masked to nil; any other recorded error is
returned as is. -/
def scannerErr : GoErr → Option GoErr
  | .eof => none
  | .mk m => some (.mk m)

/-- The `LogStreamError` values surfaced by the stream processing code,
identified by their permanence flag (the wrapped error and reason string
do not affect control flow). -/
structure LogStreamErrorM where
  permanent : Bool
deriving DecidableEq

/-- The error-handling tail of `Streamer.processLogStream` (identical in
`processMultilineLogStream`), applied to the cause with which the stream
read terminated: returns whether `s.active.Delete(podName)` ran and the
value the function returns (`none` for a nil return).  `scanner.Err()` is
consulted first, so `io.EOF` yields a nil error and no ActiveSet
deletion. -/
def processStreamEnd (e : GoErr) : Bool × Option LogStreamErrorM :=
  match scannerErr e with
  | none => (false, none)
  | some err =>
    if IsPodDeletedError err then (true, none)
    else if isPermError err then (false, some ⟨true⟩)
    else (false, some ⟨false⟩)

/-! ### The follower retry loop (`Streamer.startPodLogStreamer`)

One iteration of the per-container goroutine loop either fails to open the
log stream (`req.Stream(ctx)` returns an error) or opens it and processes
it until the read terminates with some cause.  The environment is a finite
script of these outcomes; the loop's observable actions are recorded as
events.  Cancellation (`ctx.Done()` / `stopCh`) is not modelled: the
script describes a run in which no cancellation fires.  Backoff durations
are abstracted to sleep events. -/

/-- One outcome supplied by the environment to the follower loop. -/
inductive OpenResult where
  | openFailed (e : GoErr) : OpenResult
  | opened (streamEnd : GoErr) : OpenResult
deriving DecidableEq

/-- Observable actions of the follower loop. -/
inductive FollowerEv where
  | openAttempt : FollowerEv
  | onErrorTransient : FollowerEv
  | onErrorPermanent : FollowerEv
  | backoffSleep : FollowerEv
  | activeDelete : FollowerEv
deriving DecidableEq

/-- The follower loop of `Streamer.startPodLogStreamer` run over a script,
with `retry` the current consecutive open-failure count.  Returns the
emitted events and whether the goroutine returned (`true`) or was still
looping when the script ran out (`false`).  Faithful to the source: an
open failure emits a transient `OnError`, increments `retry`, gives up
with a permanent `OnError` once `retry` exceeds `MaxRetries`, and
otherwise sleeps and retries; a successful open resets `retry` to zero,
processes the stream, deletes the pod from the ActiveSet on a pod-gone
message, returns a permanent error to the caller only when `isPermError`
classifies it so, reports a transient stream error and sleeps, and in the
nil-return case immediately loops to reopen the stream. -/
def followerRun (maxRetries : Nat) : List OpenResult → Nat → List FollowerEv × Bool
  | [], _ => ([], false)
  | .openFailed e :: rest, retry =>
    if isPermError e then
      ([.openAttempt, .onErrorPermanent], true)
    else
      let retry' := retry + 1
      if maxRetries < retry' then
        ([.openAttempt, .onErrorTransient, .onErrorPermanent], true)
      else
        let (evs, exited) := followerRun maxRetries rest retry'
        (.openAttempt :: .onErrorTransient :: .backoffSleep :: evs, exited)
  | .opened e :: rest, _retry =>
    let (deleted, res) := processStreamEnd e
    let pre := .openAttempt :: (if deleted then [.activeDelete] else [])
    match res with
    | none =>
      let (evs, exited) := followerRun maxRetries rest 0
      (pre ++ evs, exited)
    | some err =>
      if err.permanent then
        (pre ++ [.onErrorPermanent], true)
      else
        let (evs, exited) := followerRun maxRetries rest 0
        (pre ++ [.onErrorTransient, .backoffSleep] ++ evs, exited)

/-! ### Streamer lifecycle (`Streamer.Start` / `Streamer.Stop`)

`Stop` is guarded by `sync.Once`: the first call sets `stopped`, closes the
stop channel, waits for the workers and invokes `handler.OnEnd()`; later
calls do nothing.  `Start` returns a permanent `LogStreamError` when
`stopped` is already set, and otherwise launches one pod watcher per
namespace of the filter (runs in which the initial pod listings succeed
are modelled; a list failure would return early).  Worker draining
(`wg.Wait`) is a no-op in this sequential model. -/

structure StreamerLifecycle where
  stopped : Bool
  stopOnceUsed : Bool
  onEndCount : Nat
  watchersLaunched : Nat
deriving DecidableEq

/-- A freshly constructed `Streamer` (`NewStreamer`). -/
def initStreamer : StreamerLifecycle :=
  { stopped := false, stopOnceUsed := false, onEndCount := 0, watchersLaunched := 0 }

/-- `Streamer.Stop`. -/
def StopOp (s : StreamerLifecycle) : StreamerLifecycle :=
  if s.stopOnceUsed then s
  else
    { s with stopped := true, stopOnceUsed := true, onEndCount := s.onEndCount + 1 }

/-- `Streamer.Start` with `nsCount` namespaces in the filter: the resulting
state and the returned error (`none` for a nil return). -/
def StartOp (nsCount : Nat) (s : StreamerLifecycle) :
    StreamerLifecycle × Option LogStreamErrorM :=
  if s.stopped then (s, some ⟨true⟩)
  else ({ s with watchersLaunched := s.watchersLaunched + nsCount }, none)

/-- A call sequence against one `Streamer` instance. -/
inductive StreamerOp where
  | start : StreamerOp
  | stop : StreamerOp
deriving DecidableEq, BEq

/-- Runs a call sequence against a streamer state. -/
def runOps (nsCount : Nat) : List StreamerOp → StreamerLifecycle → StreamerLifecycle
  | [], s => s
  | .start :: rest, s => runOps nsCount rest (StartOp nsCount s).1
  | .stop :: rest, s => runOps nsCount rest (StopOp s)

/-! ### Merge predicates (`internal/matcher`)

The matcher code works on Go strings; it is modelled on the character
lists of Lean strings.  `strings.TrimSpace` trims `unicode.IsSpace`
characters from both ends (for the Latin-1 range: tab, newline, vertical
tab, form feed, carriage return, space, next line, no-break space).  The
compiled regexes are translated by their semantics on the anchored
patterns the source uses. -/

/-- `unicode.IsSpace` on the Latin-1 range (the range exercised here). -/
def goIsSpace (c : Char) : Bool :=
  c = ' ' || c = '\t' || c = '\n' || c = '\x0b' || c = '\x0c' || c = '\r' ||
  c = '\x85' || c = '\xa0'

/-- `strings.TrimSpace` on a character list. -/
def trimSpaceChars (l : List Char) : List Char :=
  ((l.dropWhile goIsSpace).reverse.dropWhile goIsSpace).reverse

/-- The character class of `\s` in Go's regexp syntax: `[\t\n\f\r ]`. -/
def reSpaceClass (c : Char) : Bool :=
  c = '\t' || c = '\n' || c = '\x0c' || c = '\r' || c = ' '

/-- `TabIndentationRegex.MatchString(next)` for the pattern `^\t`. -/
def startsWithTab : List Char → Bool
  | '\t' :: _ => true
  | _ => false

/-- `AtRegex.MatchString(next)` for the pattern `^\s+at `: at least one
leading `\s`-class character, then the literal `at `.  Because `a` is not
in the `\s` class, the `\s+` part matches exactly the maximal leading run
of `\s`-class characters. -/
def matchesAtRegex (l : List Char) : Bool :=
  !(l.takeWhile reSpaceClass).isEmpty &&
    "at ".data.isPrefixOf (l.dropWhile reSpaceClass)

/-- `CausedByRegex.MatchString(next)` for the pattern `^Caused by:`. -/
def startsWithCausedBy (l : List Char) : Bool :=
  "Caused by:".data.isPrefixOf l

/-- `strings.HasSuffix(s, "\\")` on a character list. -/
def endsWithBackslash (l : List Char) : Bool :=
  match l.getLast? with
  | some c => c = '\\'
  | none => false

/-- `JavaStackMatcher.ShouldMerge`: no merge for empty or whitespace-only
`next`; merge on tab indentation, on `^\s+at `, on a `Caused by:` line, or
when the trimmed `previous` ends with a backslash.  The method reads only
the matcher's compiled regexes and touches no mutable state, so it is a
function of its two arguments. -/
def JavaStackMatcher.ShouldMerge (previous next : String) : Bool :=
  if trimSpaceChars next.data = [] then false
  else if startsWithTab next.data then true
  else if matchesAtRegex next.data then true
  else if startsWithCausedBy next.data then true
  else if endsWithBackslash (trimSpaceChars previous.data) then true
  else false

/-- `JSONMatcher`: `BracketMode` and the mutable `BracketCount` (the regex
fields are fixed by `NewJSONMatcher` and translated semantically). -/
structure JSONMatcher where
  BracketMode : Bool
  BracketCount : Int
deriving DecidableEq

/-- `NewJSONMatcher`. -/
def NewJSONMatcher : JSONMatcher :=
  { BracketMode := true, BracketCount := 0 }

/-- The brace-counting loop of `JSONMatcher.ShouldMerge`: adds one per
opening brace and subtracts one per closing brace of the line, starting
from `n`. -/
def braceDelta : List Char → Int → Int
  | [], n => n
  | c :: rest, n =>
    braceDelta rest
      (if c = Char.ofNat 123 then n + 1
       else if c = Char.ofNat 125 then n - 1 else n)

/-- `StartObjectRegex.MatchString(previous)` for the pattern `^[^{]*{`:
matches exactly when the line contains an opening brace. -/
def matchesStartObject (l : List Char) : Bool :=
  l.contains (Char.ofNat 123)

/-- `JSONMatcher.ShouldMerge`, state-passing: returns the result and the
matcher as mutated by the call.  Faithful to the source: a backslash
continuation merges without touching the count; outside bracket mode
nothing merges; when the count is zero and `previous` contains an opening
brace the count is seeded to one, all braces of `previous` are counted on
top, and the seed is adjusted back down; otherwise the braces of
`previous` adjust the current count; a non-positive result is clamped to
zero and refuses the merge. -/
def JSONMatcher.ShouldMerge (m : JSONMatcher) (previous _next : String) :
    Bool × JSONMatcher :=
  if endsWithBackslash (trimSpaceChars previous.data) then (true, m)
  else if !m.BracketMode then (false, m)
  else
    let cnt :=
      if matchesStartObject previous.data && m.BracketCount = 0 then
        braceDelta previous.data 1 - 1
      else
        braceDelta previous.data m.BracketCount
    if cnt ≤ 0 then (false, { m with BracketCount := 0 })
    else (true, { m with BracketCount := cnt })

/-- Threads a stateful matcher through a list of `(previous, next)` calls,
collecting the results. -/
def runMatcher {σ : Type} (step : σ → String → String → Bool × σ) :
    σ → List (String × String) → List Bool
  | _, [] => []
  | m, (p, n) :: rest =>
    let (b, m') := step m p n
    b :: runMatcher step m' rest

/-- A state-passing matcher is pure when its result is determined by the
two string arguments alone, whatever state earlier calls produced. -/
def PureMatcher {σ : Type} (step : σ → String → String → Bool × σ) : Prop :=
  ∀ s t p n, (step s p n).1 = (step t p n).1

/-- `JavaStackMatcher.ShouldMerge` lifted to the state-passing shape (its
state is trivial because the method mutates nothing). -/
def javaStepS : Unit → String → String → Bool × Unit :=
  fun u p n => (JavaStackMatcher.ShouldMerge p n, u)

/-- `JSONMatcher.ShouldMerge` in the state-passing shape. -/
def jsonStepS : JSONMatcher → String → String → Bool × JSONMatcher :=
  JSONMatcher.ShouldMerge

/-! ## Helper lemmas -/

/-- `Start` never changes `stopped`, `stopOnceUsed` or `onEndCount`. -/
theorem StartOp_preserves (nsCount : Nat) (s : StreamerLifecycle) :
    (StartOp nsCount s).1.stopped = s.stopped ∧
    (StartOp nsCount s).1.stopOnceUsed = s.stopOnceUsed ∧
    (StartOp nsCount s).1.onEndCount = s.onEndCount := by
  unfold StartOp
  split <;> simp

/-- The one-shot gate state never resets during a call sequence. -/
theorem runOps_used_mono (nsCount : Nat) :
    ∀ (ops : List StreamerOp) (s : StreamerLifecycle),
      s.stopOnceUsed = true → (runOps nsCount ops s).stopOnceUsed = true
  | [], _, h => h
  | .start :: rest, s, h => by
    have hp := (StartOp_preserves nsCount s).2.1
    exact runOps_used_mono nsCount rest _ (hp.trans h)
  | .stop :: rest, s, h => by
    have : (StopOp s).stopOnceUsed = true := by
      unfold StopOp; split <;> simp [h]
    exact runOps_used_mono nsCount rest _ this

/-- Any sequence containing a `Stop` leaves the one-shot gate used. -/
theorem runOps_stop_used (nsCount : Nat) :
    ∀ (ops : List StreamerOp) (s : StreamerLifecycle),
      StreamerOp.stop ∈ ops → (runOps nsCount ops s).stopOnceUsed = true
  | [], _, h => absurd h (List.not_mem_nil _)
  | .start :: rest, s, h => by
    have hr : StreamerOp.stop ∈ rest := by
      cases List.mem_cons.mp h with
      | inl hh => exact absurd hh (by simp)
      | inr hh => exact hh
    exact runOps_stop_used nsCount rest _ hr
  | .stop :: rest, s, _ => by
    have : (StopOp s).stopOnceUsed = true := by
      unfold StopOp; split <;> simp_all
    exact runOps_used_mono nsCount rest _ this

/-- The end-of-stream counter always equals one when the one-shot gate has
fired and zero otherwise, along every call sequence. -/
theorem runOps_onEnd_inv (nsCount : Nat) :
    ∀ (ops : List StreamerOp) (s : StreamerLifecycle),
      s.onEndCount = (if s.stopOnceUsed then 1 else 0) →
      (runOps nsCount ops s).onEndCount =
        (if (runOps nsCount ops s).stopOnceUsed then 1 else 0)
  | [], _, h => h
  | .start :: rest, s, h => by
    have hp := StartOp_preserves nsCount s
    refine runOps_onEnd_inv nsCount rest _ ?_
    rw [hp.2.2, hp.2.1, h]
  | .stop :: rest, s, h => by
    refine runOps_onEnd_inv nsCount rest _ ?_
    unfold StopOp
    split
    · next hused => simp [h, hused]
    · next hused => simp [h, hused]

/-- The flushed runs of the multiline scan loop concatenate to the pending
buffer followed by the remaining lines: no line is lost, duplicated or
reordered by buffering. -/
theorem mlRunsAux_join {σ : Type} (step : σ → List Nat → List Nat → Bool × σ)
    (maxM : Nat) :
    ∀ (lines : List (List Nat)) (m : σ) (buffer : List (List Nat))
      (lastLine : List Nat),
      (mlRunsAux step maxM lines m buffer lastLine).flatten = buffer ++ lines
  | [], _, buffer, _ => by
    simp only [mlRunsAux]
    split
    · next hb => simp_all [List.isEmpty_iff]
    · simp
  | l :: rest, m, buffer, lastLine => by
    simp only [mlRunsAux]
    split
    · next hb =>
      have hbe : buffer = [] := List.isEmpty_iff.mp hb
      subst hbe
      simpa using mlRunsAux_join step maxM rest m [l] l
    · rcases hs : step m lastLine l with ⟨b, m'⟩
      cases b
      · simp only [hs]
        rw [List.flatten_cons, mlRunsAux_join step maxM rest m' [l] l]
        simp
      · simp only [hs]
        split
        · rw [List.flatten_cons, mlRunsAux_join step maxM rest m' [] l]
          simp
        · rw [mlRunsAux_join step maxM rest m' (buffer ++ [l]) l]
          simp

/-- Every flushed run of the multiline scan loop is non-empty. -/
theorem mlRunsAux_ne_nil {σ : Type} (step : σ → List Nat → List Nat → Bool × σ)
    (maxM : Nat) :
    ∀ (lines : List (List Nat)) (m : σ) (buffer : List (List Nat))
      (lastLine : List Nat),
      ∀ run ∈ mlRunsAux step maxM lines m buffer lastLine, run ≠ []
  | [], _, buffer, _ => by
    simp only [mlRunsAux]
    split
    · simp
    · next hb =>
      intro run hrun
      rw [List.mem_singleton] at hrun
      subst hrun
      simpa [List.isEmpty_iff] using hb
  | l :: rest, m, buffer, lastLine => by
    simp only [mlRunsAux]
    split
    · exact mlRunsAux_ne_nil step maxM rest m [l] l
    · next hb =>
      rcases hs : step m lastLine l with ⟨b, m'⟩
      cases b
      · simp only [hs]
        intro run hrun
        rcases List.mem_cons.mp hrun with h | h
        · subst h
          simpa [List.isEmpty_iff] using hb
        · exact mlRunsAux_ne_nil step maxM rest m' [l] l run h
      · simp only [hs]
        split
        · intro run hrun
          rcases List.mem_cons.mp hrun with h | h
          · subst h; simp
          · exact mlRunsAux_ne_nil step maxM rest m' [] l run h
        · exact mlRunsAux_ne_nil step maxM rest m' (buffer ++ [l]) l

/-- The multiline scan loop is the flush closure mapped over the flushed
runs: records are exactly the include-surviving runs, in flush order. -/
theorem processMLAux_eq_runs {σ : Type} (step : σ → List Nat → List Nat → Bool × σ)
    (include? : Option (List Nat → Bool)) (fmt : List Nat → List Nat)
    (maxM : Nat) :
    ∀ (lines : List (List Nat)) (m : σ) (buffer : List (List Nat))
      (lastLine : List Nat),
      processMLAux step include? fmt maxM lines m buffer lastLine =
        (mlRunsAux step maxM lines m buffer lastLine).flatMap
          (emitRecord include? fmt)
  | [], _, buffer, _ => by
    simp only [processMLAux, mlRunsAux]
    split
    · next hb =>
      have hbe : buffer = [] := List.isEmpty_iff.mp hb
      subst hbe
      simp [emitRecord]
    · simp
  | l :: rest, m, buffer, lastLine => by
    simp only [processMLAux, mlRunsAux]
    split
    · exact processMLAux_eq_runs step include? fmt maxM rest m [l] l
    · rcases hs : step m lastLine l with ⟨b, m'⟩
      cases b
      · simp only [hs]
        rw [processMLAux_eq_runs step include? fmt maxM rest m' [l] l]
        simp
      · simp only [hs]
        split
        · rw [processMLAux_eq_runs step include? fmt maxM rest m' [] l]
          simp
        · exact processMLAux_eq_runs step include? fmt maxM rest m' (buffer ++ [l]) l

/-- With `maxMultilines ≥ 2`, starting from a pending buffer strictly below
the bound, every flushed run has between 1 and `maxMultilines` lines. -/
theorem mlRunsAux_bound {σ : Type} (step : σ → List Nat → List Nat → Bool × σ)
    (maxM : Nat) (h2 : 2 ≤ maxM) :
    ∀ (lines : List (List Nat)) (m : σ) (buffer : List (List Nat))
      (lastLine : List Nat),
      buffer.length ≤ maxM - 1 →
      ∀ run ∈ mlRunsAux step maxM lines m buffer lastLine,
        1 ≤ run.length ∧ run.length ≤ maxM
  | [], _, buffer, _, hlen => by
    simp only [mlRunsAux]
    split
    · simp
    · next hb =>
      intro run hrun
      rw [List.mem_singleton] at hrun
      rw [hrun]
      constructor
      · have : buffer ≠ [] := by simpa [List.isEmpty_iff] using hb
        exact List.length_pos.mpr this
      · omega
  | l :: rest, m, buffer, lastLine, hlen => by
    simp only [mlRunsAux]
    split
    · refine mlRunsAux_bound step maxM h2 rest m [l] l ?_
      simp; omega
    · next hb =>
      rcases hs : step m lastLine l with ⟨b, m'⟩
      cases b
      · simp only [hs]
        intro run hrun
        rcases List.mem_cons.mp hrun with h | h
        · rw [h]
          refine ⟨?_, by omega⟩
          have : buffer ≠ [] := by simpa [List.isEmpty_iff] using hb
          exact List.length_pos.mpr this
        · exact mlRunsAux_bound step maxM h2 rest m' [l] l (by simp; omega) run h
      · simp only [hs]
        split
        · next hflush =>
          intro run hrun
          rcases List.mem_cons.mp hrun with h | h
          · rw [h]
            constructor
            · simp
            · have : (buffer ++ [l]).length = buffer.length + 1 := by simp
              omega
          · exact mlRunsAux_bound step maxM h2 rest m' [] l (by simp) run h
        · next hflush =>
          refine mlRunsAux_bound step maxM h2 rest m' (buffer ++ [l]) l ?_
          have : (buffer ++ [l]).length = buffer.length + 1 := by simp
          omega

/-- A record emitted by the flush closure carries the newline-join of the
flushed buffer as its raw bytes and its formatted join as its message. -/
theorem emitRecord_mem (include? : Option (List Nat → Bool))
    (fmt : List Nat → List Nat) (buffer : List (List Nat)) (r : LogRecord)
    (h : r ∈ emitRecord include? fmt buffer) :
    r.message = fmt (joinNL buffer) ∧ r.raw = joinNL buffer := by
  unfold emitRecord at h
  rcases buffer with _ | ⟨b, bs⟩
  · simp at h
  · simp only [] at h
    split at h
    · rw [List.mem_singleton] at h
      subst h
      exact ⟨rfl, rfl⟩
    · simp at h

/-- With a merge predicate that never merges, the multiline scan loop with
a one-line pending buffer behaves like the single-line loop on that line
followed by the remaining lines. -/
theorem processMLAux_neverMerge {σ : Type}
    (step : σ → List Nat → List Nat → Bool × σ)
    (include? : Option (List Nat → Bool)) (fmt : List Nat → List Nat)
    (maxM : Nat) (hstep : ∀ m p n, (step m p n).1 = false) :
    ∀ (lines : List (List Nat)) (m : σ) (b lastLine : List Nat),
      processMLAux step include? fmt maxM lines m [b] lastLine =
        processLogStream include? fmt (b :: lines)
  | [], _, b, _ => rfl
  | l :: rest, m, b, lastLine => by
    rcases hs : step m lastLine l with ⟨mb, m'⟩
    have hmb : mb = false := by
      have := hstep m lastLine l
      rw [hs] at this
      exact this
    subst hmb
    simp only [processMLAux, List.isEmpty_cons, if_neg Bool.false_ne_true, hs]
    rw [processMLAux_neverMerge step include? fmt maxM hstep rest m' l l]
    simp only [processLogStream, emitRecord, joinNL]
    split <;> simp [matchesInclude]

/-- `l₁.isPrefixOf l₂` on characters holds exactly when `l₂` extends `l₁`. -/
theorem isPrefixOf_exists_append :
    ∀ (pat l : List Char), pat.isPrefixOf l = true ↔ ∃ t, l = pat ++ t
  | [], l => by simp [List.isPrefixOf]
  | a :: pat, [] => by simp [List.isPrefixOf]
  | a :: pat, c :: l => by
    simp only [List.isPrefixOf, Bool.and_eq_true, beq_iff_eq]
    rw [isPrefixOf_exists_append pat l]
    constructor
    · rintro ⟨rfl, t, rfl⟩
      exact ⟨t, rfl⟩
    · rintro ⟨t, ht⟩
      rw [List.cons_append] at ht
      cases ht
      exact ⟨rfl, t, rfl⟩

/-- Every character kept by `takeWhile` satisfies the predicate. -/
theorem mem_takeWhile_sat (p : Char → Bool) :
    ∀ (l : List Char), ∀ c ∈ l.takeWhile p, p c = true
  | [] => by simp
  | a :: l => by
    by_cases ha : p a
    · rw [List.takeWhile_cons_of_pos ha]
      intro c hc
      rcases List.mem_cons.mp hc with h | h
      · rw [h]; exact ha
      · exact mem_takeWhile_sat p l c h
    · rw [List.takeWhile_cons_of_neg ha]
      simp

/-- `takeWhile` and `dropWhile` on a list that starts with a satisfying
run followed by a failing character split exactly at that run. -/
theorem takeWhile_all_append (p : Char → Bool) (a : Char) (t : List Char)
    (ha : p a = false) :
    ∀ (ws : List Char), (∀ c ∈ ws, p c = true) →
      (ws ++ a :: t).takeWhile p = ws ∧ (ws ++ a :: t).dropWhile p = a :: t
  | [], _ => by
    simp [List.takeWhile_cons_of_neg, List.dropWhile_cons_of_neg, ha]
  | w :: ws, hall => by
    have hw : p w = true := hall w (List.mem_cons_self w ws)
    have hrest : ∀ c ∈ ws, p c = true := fun c hc =>
      hall c (List.mem_cons_of_mem w hc)
    have ih := takeWhile_all_append p a t ha ws hrest
    constructor
    · rw [List.cons_append, List.takeWhile_cons_of_pos hw, ih.1]
    · rw [List.cons_append, List.dropWhile_cons_of_pos hw, ih.2]

/-- Semantics of the anchored pattern `^\s+at ` used by `AtRegex`: a match
is a non-empty run of `\s`-class characters followed by the literal
characters of `at `. -/
theorem matchesAtRegex_iff (l : List Char) :
    matchesAtRegex l = true ↔
      ∃ ws rest, l = ws ++ 'a' :: 't' :: ' ' :: rest ∧ ws ≠ [] ∧
        ∀ c ∈ ws, reSpaceClass c = true := by
  unfold matchesAtRegex
  rw [Bool.and_eq_true, Bool.not_eq_true', List.isEmpty_eq_false_iff_exists_mem]
  constructor
  · rintro ⟨⟨c, hc⟩, hpre⟩
    rcases (isPrefixOf_exists_append _ _).mp hpre with ⟨t, ht⟩
    refine ⟨l.takeWhile reSpaceClass, t, ?_, ?_, mem_takeWhile_sat _ l⟩
    · conv_lhs => rw [← List.takeWhile_append_dropWhile (p := reSpaceClass) (l := l)]
      rw [ht]
      rfl
    · intro hnil
      rw [hnil] at hc
      exact List.not_mem_nil c hc
  · rintro ⟨ws, rest, rfl, hne, hall⟩
    have ha : reSpaceClass 'a' = false := by decide
    have hsplit := takeWhile_all_append reSpaceClass 'a' ('t' :: ' ' :: rest) ha ws hall
    constructor
    · rcases List.exists_mem_of_ne_nil ws hne with ⟨c, hc⟩
      exact ⟨c, by rw [hsplit.1]; exact hc⟩
    · rw [hsplit.2]
      exact (isPrefixOf_exists_append _ _).mpr ⟨rest, rfl⟩

/-! ## Claims -/

/-- C1: the spec requires the scanner to deliver exactly the
newline-separated lines for every chunking of the source, dropping no
bytes.  Evaluation of the embedded `scanner.Scan` at the failing input:
when the reader returns all of `a\nb\nc\n` in one `Read`, the scanner
yields only `a` and drops `b\nc` (the remaining-data TODO in the source),
while byte-at-a-time chunking yields `a`, `b`, `c`; the single-line
processing path therefore delivers only the record `a` for that
chunking. -/
theorem C1_scanner_drops_chunk_remainder :
    specLines [97, 10, 98, 10, 99, 10] = [[97], [98], [99]] ∧
    scanTokens [[97, 10], [98, 10], [99, 10]] [] = [[97], [98], [99]] ∧
    scanTokens [[97, 10, 98, 10, 99, 10]] [] = [[97]] ∧
    (processLogStream none id (scanTokens [[97, 10, 98, 10, 99, 10]] [])).map
      LogRecord.message = [[97]] := by
  decide

/-- C2: along every call sequence against one streamer instance that
contains at least one `Stop` — with or without `Start` calls, before or
after — the end-of-stream callback runs exactly once. -/
theorem C2_stop_idempotent_onEnd_once (nsCount : Nat) (ops : List StreamerOp)
    (h : StreamerOp.stop ∈ ops) :
    (runOps nsCount ops initStreamer).onEndCount = 1 := by
  have hinv := runOps_onEnd_inv nsCount ops initStreamer rfl
  rw [hinv, runOps_stop_used nsCount ops initStreamer h]
  rfl

/-- C2 witness: two `Stop` calls with no `Start` produce exactly one
`OnEnd`. -/
theorem C2_stop_idempotent_onEnd_once_witness :
    StreamerOp.stop ∈ [StreamerOp.stop, StreamerOp.stop] ∧
    (runOps 1 [StreamerOp.stop, StreamerOp.stop] initStreamer).onEndCount = 1 :=
  ⟨List.mem_cons_self _ _,
    C2_stop_idempotent_onEnd_once 1 [StreamerOp.stop, StreamerOp.stop]
      (List.mem_cons_self _ _)⟩

/-- C3 counterexample: a stream read ending with a `pod not found` message
deletes the pod from the ActiveSet but the follower then opens the stream
again (a second `openAttempt`) instead of exiting, and a stream read
ending with `io.EOF` deletes nothing from the ActiveSet — refuting the
claim that a pod-gone termination removes the ActiveSet entry and exits
the follower without reconnecting. -/
theorem C3_pod_gone_reconnects_cex :
    IsPodDeletedError (.mk "pod not found") = true ∧
    followerRun 3 [.opened (.mk "pod not found"), .opened .eof] 0 =
      ([.openAttempt, .activeDelete, .openAttempt], false) ∧
    followerRun 3 [.opened .eof] 0 = ([.openAttempt], false) := by
  decide

/-- C3 amended: a stream read ending with one of the four pod-gone message
substrings removes the pod from the ActiveSet and surfaces nothing through
`OnError`, and a read ending with `io.EOF` is masked by `scanner.Err` and
neither removes the pod nor surfaces an error; in both cases the follower
does not exit but immediately attempts to reopen the stream with a reset
failure counter. -/
theorem C3_pod_gone_amended (maxRetries : Nat) (msg : String)
    (rest : List OpenResult) (retry : Nat)
    (h : IsPodDeletedError (.mk msg) = true) :
    followerRun maxRetries (.opened (.mk msg) :: rest) retry =
      (.openAttempt :: .activeDelete :: (followerRun maxRetries rest 0).1,
        (followerRun maxRetries rest 0).2) ∧
    followerRun maxRetries (.opened .eof :: rest) retry =
      (.openAttempt :: (followerRun maxRetries rest 0).1,
        (followerRun maxRetries rest 0).2) := by
  rcases hr : followerRun maxRetries rest 0 with ⟨evs, exited⟩
  constructor
  · simp [followerRun, processStreamEnd, scannerErr, h, hr]
  · simp [followerRun, processStreamEnd, scannerErr, hr]

/-- C3 witness: a `has been terminated` stream end deletes the ActiveSet
entry, surfaces no error, and leaves the follower looping. -/
theorem C3_pod_gone_amended_witness :
    followerRun 2 [.opened (.mk "has been terminated")] 0 =
      ([.openAttempt, .activeDelete], false) :=
  (C3_pod_gone_amended 2 "has been terminated" [] 0 (by decide)).1

/-- C4 counterexample: `maxMultilines = 1` is accepted by `NewStreamer`,
yet a merged second line is appended before the bound is checked, so the
Reassembler emits a record made of the two lines `7` and `8` — more than
`maxMultilines` constituent lines — refuting the claimed bound for every
`maxMultilines ≥ 1`. -/
theorem C4_maxMultilines_one_cex :
    resolveMaxMultilines 1 = 1 ∧
    processMultilineLogStream (fun (u : Unit) _ _ => (true, u)) none id 1
      [[7], [8]] () = [⟨[7, 10, 8], [7, 10, 8]⟩] ∧
    mlRuns (fun (u : Unit) _ _ => (true, u)) 1 [[7], [8]] () = [[[7], [8]]] ∧
    ¬ (([[7], [8]] : List (List Nat)).length ≤ 1) := by
  decide

/-- C4 amended: for every `maxMultilines ≥ 2`, every merge predicate and
every include setting, each delivered record is the flush of a run of
between 1 and `maxMultilines` lines (its raw bytes are the newline-join of
that run and its message the formatted join); and with
`maxMultilines = 3` and ten consecutive always-merged lines the flushed
runs have lengths 3, 3, 3, 1 and the records preserve line order. -/
theorem C4_bounded_multiline_amended {σ : Type}
    (step : σ → List Nat → List Nat → Bool × σ)
    (include? : Option (List Nat → Bool)) (fmt : List Nat → List Nat)
    (maxM : Nat) (h2 : 2 ≤ maxM) (lines : List (List Nat)) (m : σ) :
    (∀ r ∈ processMultilineLogStream step include? fmt maxM lines m,
        ∃ run, r.raw = joinNL run ∧ r.message = fmt (joinNL run) ∧
          1 ≤ run.length ∧ run.length ≤ maxM) ∧
    (mlRuns (fun (u : Unit) _ _ => (true, u)) 3
        ([0, 1, 2, 3, 4, 5, 6, 7, 8, 9].map (fun i => [i])) ()).map List.length
      = [3, 3, 3, 1] ∧
    (processMultilineLogStream (fun (u : Unit) _ _ => (true, u)) none id 3
        ([0, 1, 2, 3, 4, 5, 6, 7, 8, 9].map (fun i => [i])) ()).map
      LogRecord.message
      = [[0, 10, 1, 10, 2], [3, 10, 4, 10, 5], [6, 10, 7, 10, 8], [9]] := by
  refine ⟨?_, by decide, by decide⟩
  intro r hr
  rw [processMultilineLogStream, processMLAux_eq_runs] at hr
  rcases List.mem_flatMap.mp hr with ⟨run, hrun, hmem⟩
  have hb := mlRunsAux_bound step maxM h2 lines m [] [] (by simp) run hrun
  have he := emitRecord_mem include? fmt run r hmem
  exact ⟨run, he.2, he.1, hb.1, hb.2⟩

/-- C4 witness: the bound instantiated at `maxMultilines = 3` on the
ten-line always-merge scenario. -/
theorem C4_bounded_multiline_amended_witness :
    2 ≤ 3 ∧
    ∀ r ∈ processMultilineLogStream (fun (u : Unit) _ _ => (true, u)) none id 3
        ([0, 1, 2, 3, 4, 5, 6, 7, 8, 9].map (fun i => [i])) (),
      ∃ run, r.raw = joinNL run ∧ r.message = id (joinNL run) ∧
        1 ≤ run.length ∧ run.length ≤ 3 :=
  ⟨by decide,
    (C4_bounded_multiline_amended (fun (u : Unit) _ _ => (true, u)) none id 3
      (by decide) ([0, 1, 2, 3, 4, 5, 6, 7, 8, 9].map (fun i => [i])) ()).1⟩

/-- C5: with `maxRetries = 0`, a follower whose first open attempt fails
with a transient error makes exactly one open attempt, emits exactly one
permanent error through `OnError`, sleeps for no backoff, performs no
reconnect, and returns — whatever outcomes the environment would have
supplied next; and a successful open always resets the consecutive-failure
counter to zero. -/
theorem C5_zero_retries_single_attempt :
    (∀ (e : GoErr) (rest : List OpenResult),
      followerRun 0 (.openFailed e :: rest) 0 =
        ([.openAttempt, .onErrorTransient, .onErrorPermanent], true) ∧
      (followerRun 0 (.openFailed e :: rest) 0).1.count .openAttempt = 1 ∧
      (followerRun 0 (.openFailed e :: rest) 0).1.count .onErrorPermanent = 1 ∧
      (followerRun 0 (.openFailed e :: rest) 0).1.count .backoffSleep = 0 ∧
      (followerRun 0 (.openFailed e :: rest) 0).2 = true) ∧
    (∀ (maxRetries : Nat) (e : GoErr) (rest : List OpenResult) (retry : Nat),
      followerRun maxRetries (.opened e :: rest) retry =
        followerRun maxRetries (.opened e :: rest) 0) := by
  constructor
  · intro e rest
    have h : followerRun 0 (.openFailed e :: rest) 0 =
        ([.openAttempt, .onErrorTransient, .onErrorPermanent], true) := by
      simp [followerRun, isPermError]
    refine ⟨h, ?_, ?_, ?_, ?_⟩ <;> rw [h] <;> decide
  · intro maxRetries e rest retry
    rfl

/-- C6 counterexample: a first `Start` on a fresh streamer returns nil and
a second `Start` on the same (running, never stopped) instance returns nil
again and launches its watchers a second time — refuting the claim that no
second `Start` can succeed. -/
theorem C6_double_start_cex :
    (StartOp 1 initStreamer).2 = none ∧
    (StartOp 1 (StartOp 1 initStreamer).1).2 = none ∧
    (StartOp 1 (StartOp 1 initStreamer).1).1.watchersLaunched = 2 := by
  decide

/-- C6 amended: `Start` on a stopped instance returns a permanent error
and launches no watchers; the single-start rule is otherwise not enforced
by the code. -/
theorem C6_start_after_stop_amended (nsCount : Nat) (s : StreamerLifecycle)
    (h : s.stopped = true) :
    (StartOp nsCount s).2 = some ⟨true⟩ ∧ (StartOp nsCount s).1 = s := by
  simp [StartOp, h]

/-- C6 witness: `Start` after a `Stop` on a fresh instance fails
permanently without state change. -/
theorem C6_start_after_stop_amended_witness :
    (StopOp initStreamer).stopped = true ∧
    (StartOp 1 (StopOp initStreamer)).2 = some ⟨true⟩ ∧
    (StartOp 1 (StopOp initStreamer)).1 = StopOp initStreamer :=
  ⟨by decide,
    (C6_start_after_stop_amended 1 (StopOp initStreamer) (by decide)).1,
    (C6_start_after_stop_amended 1 (StopOp initStreamer) (by decide)).2⟩

/-- C7: when the merge predicate rejects every pair, whatever its state,
the multiline processing path delivers exactly the records of the
single-line path on the same scanned lines — same messages, same raw
bytes, same order, same include filtering. -/
theorem C7_never_merge_degenerates {σ : Type}
    (step : σ → List Nat → List Nat → Bool × σ)
    (include? : Option (List Nat → Bool)) (fmt : List Nat → List Nat)
    (maxM : Nat) (hstep : ∀ m p n, (step m p n).1 = false)
    (lines : List (List Nat)) (m : σ) :
    processMultilineLogStream step include? fmt maxM lines m =
      processLogStream include? fmt lines := by
  cases lines with
  | nil => rfl
  | cons l rest =>
    exact processMLAux_neverMerge step include? fmt maxM hstep rest m l l

/-- C7 witness: the equivalence at a constantly-false predicate on two
concrete lines. -/
theorem C7_never_merge_degenerates_witness :
    processMultilineLogStream (fun (u : Unit) _ _ => (false, u)) none id 5
      [[97], [98]] () = processLogStream none id [[97], [98]] :=
  C7_never_merge_degenerates (fun (u : Unit) _ _ => (false, u)) none id 5
    (fun _ _ _ => rfl) [[97], [98]] ()

/-- C8 counterexample: for `previous = "x"` and `next = "at y"` — a
non-whitespace `next` that is `at ` preceded by zero spaces — the claim
requires a merge, but `AtRegex` is `^\s+at ` and the code refuses. -/
theorem C8_at_requires_space_cex :
    JavaStackMatcher.ShouldMerge "x" "at y" = false ∧
    trimSpaceChars "at y".data ≠ [] ∧
    "at ".data.isPrefixOf ("at y".data.dropWhile (fun c => c = ' ')) = true := by
  decide

/-- C8 amended: `ShouldMerge` returns true iff `next` is not empty or
whitespace-only and either `next` starts with a tab, or with at least one
whitespace character (the regex `\s` class) followed by `at `, or `next`
starts with `Caused by:`, or the whitespace-trimmed `previous` ends with a
backslash. -/
theorem C8_java_matcher_amended (previous next : String) :
    JavaStackMatcher.ShouldMerge previous next = true ↔
      (trimSpaceChars next.data ≠ [] ∧
        (startsWithTab next.data = true ∨
          (∃ ws rest, next.data = ws ++ 'a' :: 't' :: ' ' :: rest ∧ ws ≠ [] ∧
            ∀ c ∈ ws, reSpaceClass c = true) ∨
          startsWithCausedBy next.data = true ∨
          endsWithBackslash (trimSpaceChars previous.data) = true)) := by
  unfold JavaStackMatcher.ShouldMerge
  rw [← matchesAtRegex_iff]
  split_ifs with h1 h2 h3 h4 h5 <;> simp_all

/-- C9 counterexample: the JSON matcher is not a pure function of its two
arguments: after the call `ShouldMerge("{", "x")` the call
`ShouldMerge("a", "x")` returns true, while from a fresh matcher the same
call returns false. -/
theorem C9_json_matcher_stateful_cex :
    ¬ PureMatcher jsonStepS ∧
    runMatcher jsonStepS NewJSONMatcher [("\x7b", "x"), ("a", "x")] =
      [true, true] ∧
    runMatcher jsonStepS NewJSONMatcher [("z", "x"), ("a", "x")] =
      [false, false] := by
  refine ⟨fun hpure => ?_, by decide, by decide⟩
  have h := hpure ⟨true, 1⟩ NewJSONMatcher "a" "x"
  have h1 : (jsonStepS ⟨true, 1⟩ "a" "x").1 = true := by decide
  have h2 : (jsonStepS NewJSONMatcher "a" "x").1 = false := by decide
  rw [h1, h2] at h
  exact absurd h (by decide)

/-- C9 amended: the JVM-style stack matcher is a pure function of
`(previous, next)` — its method reads no mutable state — but the JSON
matcher is not: its result also depends on the brace count carried over
from preceding calls. -/
theorem C9_matcher_purity_amended :
    PureMatcher javaStepS ∧ ¬ PureMatcher jsonStepS := by
  constructor
  · intro s t p n
    rfl
  · intro hpure
    have h := hpure ⟨true, 1⟩ NewJSONMatcher "a" "x"
    have h1 : (jsonStepS ⟨true, 1⟩ "a" "x").1 = true := by decide
    have h2 : (jsonStepS NewJSONMatcher "a" "x").1 = false := by decide
    rw [h1, h2] at h
    exact absurd h (by decide)

/-- C10: for every merge predicate, include setting and bound, the
multiline processor partitions the scanned lines into the flushed runs —
contiguous, order-preserving, disjoint, adjacent, jointly exhaustive and
each non-empty — and delivers exactly the flush of each run in order, an
include-failing run being dropped whole. -/
theorem C10_runs_partition {σ : Type}
    (step : σ → List Nat → List Nat → Bool × σ)
    (include? : Option (List Nat → Bool)) (fmt : List Nat → List Nat)
    (maxM : Nat) (lines : List (List Nat)) (m : σ) :
    (mlRuns step maxM lines m).flatten = lines ∧
    (∀ run ∈ mlRuns step maxM lines m, run ≠ []) ∧
    processMultilineLogStream step include? fmt maxM lines m =
      (mlRuns step maxM lines m).flatMap (emitRecord include? fmt) :=
  ⟨mlRunsAux_join step maxM lines m [] [],
    mlRunsAux_ne_nil step maxM lines m [] [],
    processMLAux_eq_runs step include? fmt maxM lines m [] []⟩

end Klogstream
